import Mathlib

/-!
Verification development for the aimpact adapter SDK.

The TypeScript source is embedded shallowly:

* `adapterRegistry` / `isValidAdapterId` (adapterRegistry.ts): the closed set of
  known adapter identifiers and its membership test.
* `AdapterClient.callAdapter` (client.ts): the retry-with-backoff loop around a
  transport call.  The transport is modelled as an oracle
  `Nat → AttemptOutcome` giving the outcome of each (1-indexed) attempt; the
  JavaScript exception flow is modelled with `Except` (the only exception that
  can escape `callAdapter` is the invalid-identifier validation error), and the
  loop additionally records how many attempts were performed and the list of
  backoff delays that were awaited, so that the retry-accounting claims are
  statable.
* `AdapterExecutor.runBeforeLLM` / `runAfterLLM` / `runParallel` (executor.ts):
  the client is abstracted as an oracle
  `String → Option String → Ctx → Except String AdapterResponse` (adapter id,
  input, context ↦ thrown error or returned invocation result); each chain also
  records the trace of calls it makes (adapter id, input and context passed),
  so that ordering, threading and abort claims are statable.
* `HealthManager` (healthManager.ts): health classification and aggregation,
  and a small timer system modelling `setInterval` / `clearInterval` handles
  for the monitoring start/stop logic.

JavaScript objects used as open string-keyed maps (`AdapterContext`) are
modelled as association lists `List (String × Int)` with `Object.assign`
semantics: an existing key is overwritten in place, a new key is appended.
Context values are modelled as integers, which covers every value the
specification examples use; the merge logic is value-agnostic.  JavaScript
truthiness tests on `output` (a string) and `data` (an object) are modelled
explicitly: the empty string is falsy, any present object is truthy.
-/

/-! ### Adapter registry (adapterRegistry.ts) -/

/-- The keys of `adapterRegistry`, in source (insertion) order. -/
def adapterRegistryKeys : List String :=
  ["pdf-text-extractor", "persona-legal", "vector-search-legal",
   "risk-analyzer", "slack-sender", "db-logger", "telegram-alert"]

/-- `isValidAdapterId`: membership test in the closed registry key set. -/
def isValidAdapterId (id : String) : Bool :=
  adapterRegistryKeys.contains id

/-! ### Contexts as association lists with Object.assign semantics -/

/-- `AdapterContext`: an open string-keyed mapping, association-list model. -/
abbrev Ctx := List (String × Int)

/-- Lookup of a key in a context. -/
def ctxGet (c : Ctx) (k : String) : Option Int :=
  (c.find? (fun p => p.1 = k)).map (fun p => p.2)

/-- Write one key JavaScript-style: overwrite in place if present, else append. -/
def ctxSet (c : Ctx) (k : String) (v : Int) : Ctx :=
  if c.any (fun p => p.1 = k) then
    c.map (fun p => if p.1 = k then (k, v) else p)
  else
    c ++ [(k, v)]

/-- `Object.assign(c, u)`: merge the update `u` into `c`, last write wins. -/
def objAssign (c u : Ctx) : Ctx :=
  u.foldl (fun acc p => ctxSet acc p.1 p.2) c

/-! ### Invocation results and the transport (types.ts / client.ts) -/

/-- The `status` tag of an `AdapterResponse`. -/
inductive RespStatus where
  | ok
  | error
deriving DecidableEq, Repr

/-- `AdapterResponse`: optional textual output, status tag, optional partial
context update (`data`), optional error message. -/
structure AdapterResponse where
  output : Option String
  status : RespStatus
  data : Option Ctx
  error : Option String
deriving DecidableEq, Repr

/-- An error thrown during one transport attempt: message plus the optional
HTTP status attached when the response was non-2xx. -/
structure TransportError where
  message : String
  status : Option Nat
deriving DecidableEq, Repr

/-- Outcome of one transport attempt: a parsed `AdapterResponse` on a 2xx
reply, or a thrown `TransportError` (network failure or non-ok status). -/
inductive AttemptOutcome where
  | success (resp : AdapterResponse)
  | failure (err : TransportError)
deriving DecidableEq, Repr

/-- `RetryConfig` from types.ts. -/
structure RetryConfig where
  maxAttempts : Nat
  baseDelay : Nat
  maxDelay : Nat
  backoffMultiplier : Nat
deriving DecidableEq, Repr

/-- The default retry configuration of `AdapterClient`. -/
def defaultRetryConfig : RetryConfig :=
  { maxAttempts := 3, baseDelay := 1000, maxDelay := 10000, backoffMultiplier := 2 }

/-- `getRetryDelay(attempt, rc) = min(baseDelay * backoffMultiplier^(attempt-1), maxDelay)`. -/
def getRetryDelay (attempt : Nat) (rc : RetryConfig) : Nat :=
  min (rc.baseDelay * rc.backoffMultiplier ^ (attempt - 1)) rc.maxDelay

/-- `error.status >= 400 && error.status < 500` with JavaScript semantics: an
absent status compares false. -/
def isClientError (e : TransportError) : Bool :=
  match e.status with
  | some s => decide (400 ≤ s) && decide (s < 500)
  | none => false

/-- `shouldRetry(error, attempt, maxAttempts)` from client.ts. -/
def shouldRetry (e : TransportError) (attempt maxAttempts : Nat) : Bool :=
  if attempt ≥ maxAttempts then false
  else if isClientError e then false
  else true

/-- The synthesized `error` response built after the retry loop ends without a
successful attempt: carries the last error message, or the fixed fallback text
when no attempt ever ran. -/
def errorResponse (lastError : Option TransportError) : AdapterResponse :=
  { output := none
    status := RespStatus.error
    data := none
    error := some (match lastError with
      | some e => e.message
      | none => "Unknown error occurred") }

/-- Result of running the retry loop: the response returned to the caller, the
number of transport attempts performed, and the list of backoff delays awaited
(the delay before attempt `k+1` is the `k`-th entry). -/
structure LoopResult where
  resp : AdapterResponse
  attempts : Nat
  delays : List Nat
deriving DecidableEq, Repr

/-- One step of the `for (attempt = 1; attempt <= maxAttempts; attempt++)`
loop of `callAdapter`.  `fuel` is the number of loop iterations the guard still
allows (`maxAttempts - attempt + 1` at every real call site); `lastError` is
the accumulated `lastError` variable.  `fuel = 0` is the loop guard failing, at
which point the synthesized error response is returned. -/
def retryFrom (t : Nat → AttemptOutcome) (rc : RetryConfig) :
    Nat → Nat → Option TransportError → LoopResult
  | 0, _, lastError =>
      { resp := errorResponse lastError, attempts := 0, delays := [] }
  | fuel + 1, attempt, _ =>
      match t attempt with
      | AttemptOutcome.success resp =>
          { resp := resp, attempts := 1, delays := [] }
      | AttemptOutcome.failure err =>
          if shouldRetry err attempt rc.maxAttempts then
            if attempt < rc.maxAttempts then
              let r := retryFrom t rc fuel (attempt + 1) (some err)
              { resp := r.resp, attempts := r.attempts + 1,
                delays := getRetryDelay attempt rc :: r.delays }
            else
              let r := retryFrom t rc fuel (attempt + 1) (some err)
              { resp := r.resp, attempts := r.attempts + 1, delays := r.delays }
          else
            { resp := errorResponse (some err), attempts := 1, delays := [] }

/-- The whole retry loop of `callAdapter`, started at attempt 1. -/
def callAdapterLoop (t : Nat → AttemptOutcome) (rc : RetryConfig) : LoopResult :=
  retryFrom t rc rc.maxAttempts 1 none

/-- `AdapterClient.callAdapter`: validation first (a thrown exception is the
`Except.error` case), then the retry loop.  The transport oracle `t` gives the
outcome of each attempt. -/
def callAdapter (adapterId : String) (t : Nat → AttemptOutcome) (rc : RetryConfig) :
    Except String LoopResult :=
  if isValidAdapterId adapterId then
    Except.ok (callAdapterLoop t rc)
  else
    Except.error ("Invalid adapter ID: " ++ adapterId)

/-! ### Pipeline executor (executor.ts)

The executor delegates every invocation to `AdapterClient.callAdapter`; here
the client is abstracted as an oracle `call : String → Option String → Ctx →
Except String AdapterResponse` (an `Except.error` is an exception thrown by the
client, e.g. the invalid-identifier validation error, which the executor lets
propagate).  Each entry point also returns the trace of calls it made, so that
invocation order, the inputs and the contexts actually passed to each adapter
are observable. -/

/-- One call made by the executor to the client: adapter id, input (`none` is
the JavaScript `null`), and the context object passed. -/
structure ExecCall where
  adapterId : String
  input : Option String
  context : Ctx
deriving DecidableEq, Repr

/-- The client oracle type used by the executor model. -/
abbrev CallOracle := String → Option String → Ctx → Except String AdapterResponse

/-- JavaScript truthiness of the `output` field: present and non-empty. -/
def truthyOutput : Option String → Bool
  | some s => s != ""
  | none => false

/-- Rendering of the optional `error` field inside a template literal:
an absent value prints as the string "undefined". -/
def errString : Option String → String
  | some s => s
  | none => "undefined"

/-- The `for` loop of `runBeforeLLM`: threads the current input and the
accumulated context through the adapter list, aborting (Except.error) on the
first `error`-status result; also returns the trace of calls made. -/
def runBeforeLLMAux (call : CallOracle) :
    List String → String → Ctx → Except String (String × Ctx) × List ExecCall
  | [], cur, ctx => (Except.ok (cur, ctx), [])
  | id :: rest, cur, ctx =>
      match call id (some cur) ctx with
      | Except.error e => (Except.error e, [⟨id, some cur, ctx⟩])
      | Except.ok resp =>
          if resp.status = RespStatus.error then
            (Except.error ("Adapter " ++ id ++ " failed after retries: " ++
                errString resp.error),
             [⟨id, some cur, ctx⟩])
          else
            let cur2 := if truthyOutput resp.output then resp.output.getD cur else cur
            let ctx2 := if resp.data.isSome then objAssign ctx (resp.data.getD []) else ctx
            let r := runBeforeLLMAux call rest cur2 ctx2
            (r.1, ⟨id, some cur, ctx⟩ :: r.2)

/-- `AdapterExecutor.runBeforeLLM` (result component; the initial
`{...context}` copy is the identity on the pure association-list model). -/
def runBeforeLLM (call : CallOracle) (input : String) (adapterIds : List String)
    (context : Ctx) : Except String (String × Ctx) :=
  (runBeforeLLMAux call adapterIds input context).1

/-- The trace of calls `runBeforeLLM` makes. -/
def runBeforeLLMCalls (call : CallOracle) (input : String) (adapterIds : List String)
    (context : Ctx) : List ExecCall :=
  (runBeforeLLMAux call adapterIds input context).2

/-- The `for` loop of `runAfterLLM`: every adapter is invoked with a null
input against the given context; only `status` and `error` of each result are
consulted, and the context variable is never reassigned or merged into. -/
def runAfterLLMAux (call : CallOracle) :
    List String → Ctx → Except String Unit × List ExecCall
  | [], _ => (Except.ok (), [])
  | id :: rest, ctx =>
      match call id none ctx with
      | Except.error e => (Except.error e, [⟨id, none, ctx⟩])
      | Except.ok resp =>
          if resp.status = RespStatus.error then
            (Except.error ("Post-LLM adapter " ++ id ++ " failed after retries: " ++
                errString resp.error),
             [⟨id, none, ctx⟩])
          else
            let r := runAfterLLMAux call rest ctx
            (r.1, ⟨id, none, ctx⟩ :: r.2)

/-- `AdapterExecutor.runAfterLLM` (result component). -/
def runAfterLLM (call : CallOracle) (context : Ctx) (adapterIds : List String) :
    Except String Unit :=
  (runAfterLLMAux call adapterIds context).1

/-- The trace of calls `runAfterLLM` makes. -/
def runAfterLLMCalls (call : CallOracle) (context : Ctx) (adapterIds : List String) :
    List ExecCall :=
  (runAfterLLMAux call adapterIds context).2

/-- `AdapterClient.batchCallAdapters`: one call per listed adapter, every call
receiving the same input and the same context. -/
def batchCallAdapters (call : CallOracle) (adapterIds : List String)
    (input : Option String) (context : Ctx) : List (Except String AdapterResponse) :=
  adapterIds.map (fun id => call id input context)

/-- `await Promise.all(...)` over the batch: when some promise of the batch
rejected, the await re-throws the first rejection in list order and nothing
after it runs (the only rejection `callAdapter` produces is its synchronous
invalid-identifier throw, so every rejection is already settled when the batch
is awaited and the first-listed one wins); otherwise the await yields the list
of fulfilled results. -/
def awaitAll : List (Except String AdapterResponse) →
    Except String (List AdapterResponse)
  | [] => Except.ok []
  | Except.error e :: _ => Except.error e
  | Except.ok r :: rest => (awaitAll rest).map (fun l => r :: l)

/-- The `results.forEach((result, index) => ...)` pass of `runParallel`:
walks (adapter id, fulfilled result) pairs in list order, throwing at the
first `error`-status result, and otherwise merging each present `data` update
into the accumulator.  It only ever runs on fulfilled results: a rejection in
the batch aborts the await before this pass. -/
def parallelFold : List (String × AdapterResponse) → Ctx → Except String Ctx
  | [], acc => Except.ok acc
  | (id, resp) :: rest, acc =>
      if resp.status = RespStatus.error then
        Except.error ("Adapter " ++ id ++ " failed after retries: " ++
          errString resp.error)
      else
        parallelFold rest
          (if resp.data.isSome then objAssign acc (resp.data.getD []) else acc)

/-- `AdapterExecutor.runParallel`: all listed adapters are invoked against the
same initial input and context (the batch); awaiting the batch re-throws a
rejection before any merging, and otherwise the fulfilled results are folded
in the original list order into a copy of the initial context. -/
def runParallel (call : CallOracle) (input : Option String)
    (adapterIds : List String) (context : Ctx) : Except String Ctx :=
  match awaitAll (batchCallAdapters call adapterIds input context) with
  | Except.error e => Except.error e
  | Except.ok results => parallelFold (adapterIds.zip results) context

/-! ### Health manager (healthManager.ts)

`checkAdapterHealth` wraps one probe invocation of `callAdapter` in a
try/catch; the probe outcome is modelled as `Except String AdapterResponse`
(the `Except.error` case is a thrown exception, whose message the catch block
extracts).  The measured latency and the clock reading for `lastCheck` are
parameters, since wall time is outside the embedding. -/

/-- `HealthStatus` from types.ts. -/
inductive HealthStatus where
  | healthy
  | degraded
  | unhealthy
deriving DecidableEq, Repr

/-- `AdapterHealth` from types.ts; `lastCheck` is an abstract clock value. -/
structure AdapterHealth where
  status : HealthStatus
  latency : Nat
  lastCheck : Nat
  message : Option String
deriving DecidableEq, Repr

/-- `SystemHealth` from types.ts; the per-adapter record map is an association
list in registry order. -/
structure SystemHealth where
  status : HealthStatus
  adapters : List (String × AdapterHealth)
  timestamp : Nat
deriving DecidableEq, Repr

/-- `HealthManager.checkAdapterHealth`: classify one probe outcome.  A thrown
error or an `error`-status result is `unhealthy` with the message attached; a
successful probe with latency above 1000 is `degraded`; otherwise `healthy`.
Total: every adapter identifier and outcome yields a record, nothing is
re-thrown. -/
def checkAdapterHealth (probeResult : Except String AdapterResponse)
    (latency now : Nat) : AdapterHealth :=
  match probeResult with
  | Except.error msg =>
      { status := HealthStatus.unhealthy, latency := latency, lastCheck := now,
        message := some msg }
  | Except.ok resp =>
      if resp.status = RespStatus.error then
        { status := HealthStatus.unhealthy, latency := latency, lastCheck := now,
          message := resp.error }
      else
        if latency > 1000 then
          { status := HealthStatus.degraded, latency := latency, lastCheck := now,
            message := some "High latency detected" }
        else
          { status := HealthStatus.healthy, latency := latency, lastCheck := now,
            message := none }

/-- The overall-status update performed per adapter inside the
`checkSystemHealth` loop. -/
def overallStep (overall : HealthStatus) (h : HealthStatus) : HealthStatus :=
  if h = HealthStatus.unhealthy then HealthStatus.unhealthy
  else if h = HealthStatus.degraded ∧ overall = HealthStatus.healthy then
    HealthStatus.degraded
  else overall

/-- `this.healthState.get(adapterId)`: lookup in the health-state map. -/
def lookupHealth (st : List (String × AdapterHealth)) (id : String) :
    Option AdapterHealth :=
  (st.find? (fun p => p.1 = id)).map (fun p => p.2)

/-- `this.healthState.set(adapterId, probe adapterId)`: JavaScript Map.set
semantics — overwrite in place when the key is present, append otherwise. -/
def updHealth (probe : String → AdapterHealth)
    (st : List (String × AdapterHealth)) (id : String) :
    List (String × AdapterHealth) :=
  if st.any (fun p => p.1 = id) then
    st.map (fun p => if p.1 = id then (id, probe id) else p)
  else
    st ++ [(id, probe id)]

/-- `HealthManager.checkSystemHealth`: probe every registry key in order
(`probe` is the per-adapter record produced by `checkAdapterHealth`), build the
per-adapter record map, fold the worst-case overall status starting from
`healthy`, and write every new record into the health-state map. -/
def checkSystemHealth (probe : String → AdapterHealth)
    (healthState : List (String × AdapterHealth)) (now : Nat) :
    SystemHealth × List (String × AdapterHealth) :=
  let adapters := adapterRegistryKeys.map (fun id => (id, probe id))
  let overall := adapterRegistryKeys.foldl
    (fun acc id => overallStep acc (probe id).status) HealthStatus.healthy
  let newState := adapterRegistryKeys.foldl (updHealth probe) healthState
  ({ status := overall, adapters := adapters, timestamp := now }, newState)

/-! ### Monitoring timers (healthManager.ts)

`setInterval` / `clearInterval` are modelled by a timer system holding the set
of currently scheduled handles; `startMonitoring` and `stopMonitoring` act on
the pair (manager state, timer system).  The immediate `checkSystemHealth`
performed on start is counted in `checksRun`. -/

/-- The ambient timer registry: a fresh-handle counter and the list of live
interval handles (with their interval lengths). -/
structure TimerSys where
  nextId : Nat
  active : List (Nat × Nat)
deriving DecidableEq, Repr

/-- `setInterval(intervalMs)`: allocate a fresh handle. -/
def setIntervalTimer (s : TimerSys) (intervalMs : Nat) : TimerSys × Nat :=
  ({ nextId := s.nextId + 1, active := s.active ++ [(s.nextId, intervalMs)] }, s.nextId)

/-- `clearInterval(handle)`: drop the handle. -/
def clearIntervalTimer (s : TimerSys) (handle : Nat) : TimerSys :=
  { nextId := s.nextId, active := s.active.filter (fun p => p.1 ≠ handle) }

/-- The monitoring-related state of a `HealthManager`: the optional stored
`checkInterval` handle, plus a count of health checks triggered. -/
structure MonitorState where
  checkInterval : Option Nat
  checksRun : Nat
deriving DecidableEq, Repr

/-- `HealthManager.startMonitoring(interval)`: clear the prior handle if one is
stored, run an immediate check, then schedule and store a fresh handle. -/
def startMonitoring (hm : MonitorState) (sys : TimerSys) (intervalMs : Nat) :
    MonitorState × TimerSys :=
  let sys1 := match hm.checkInterval with
    | some handle => clearIntervalTimer sys handle
    | none => sys
  let r := setIntervalTimer sys1 intervalMs
  ({ checkInterval := some r.2, checksRun := hm.checksRun + 1 }, r.1)

/-- `HealthManager.stopMonitoring()`: clear and forget the stored handle if
any; otherwise do nothing. -/
def stopMonitoring (hm : MonitorState) (sys : TimerSys) : MonitorState × TimerSys :=
  match hm.checkInterval with
  | some handle =>
      ({ checkInterval := none, checksRun := hm.checksRun }, clearIntervalTimer sys handle)
  | none => (hm, sys)

/-- Consistency of a manager with the timer registry: the handles live in the
registry are exactly the one the manager stores, and any stored handle was
allocated in the past. -/
def monitorWf (hm : MonitorState) (sys : TimerSys) : Prop :=
  match hm.checkInterval with
  | some handle => (sys.active.map (fun p => p.1)) = [handle] ∧ handle < sys.nextId
  | none => sys.active = []

/-! ### Retry-loop accounting lemmas -/

/-- Invariant of the retry loop: the number of attempts performed is bounded by
the remaining fuel, at least one attempt runs whenever the guard admits one,
and the recorded delays are exactly `getRetryDelay` of the attempt preceding
each wait. -/
theorem retryFrom_inv (t : Nat → AttemptOutcome) (rc : RetryConfig) :
    ∀ fuel attempt last, fuel + attempt = rc.maxAttempts + 1 →
      (retryFrom t rc fuel attempt last).attempts ≤ fuel ∧
      (retryFrom t rc fuel attempt last).delays =
        (List.range' attempt ((retryFrom t rc fuel attempt last).attempts - 1)).map
          (fun j => getRetryDelay j rc) ∧
      (1 ≤ fuel → 1 ≤ (retryFrom t rc fuel attempt last).attempts) := by
  intro fuel
  induction fuel with
  | zero =>
      intro attempt last _
      simp [retryFrom]
  | succ f ih =>
      intro attempt last hsum
      match ht : t attempt with
      | AttemptOutcome.success resp =>
          simp [retryFrom, ht]
      | AttemptOutcome.failure err =>
          by_cases hs : shouldRetry err attempt rc.maxAttempts = true
          · have hlt : attempt < rc.maxAttempts := by
              by_contra hge
              unfold shouldRetry at hs
              rw [if_pos (by omega)] at hs
              exact absurd hs (by simp)
            obtain ⟨h1, h2, h3⟩ := ih (attempt + 1) (some err) (by omega)
            have hr1 : 1 ≤ (retryFrom t rc f (attempt + 1) (some err)).attempts :=
              h3 (by omega)
            refine ⟨?_, ?_, ?_⟩
            · simp only [retryFrom, ht, hs, if_true, if_pos hlt]
              omega
            · simp only [retryFrom, ht, hs, if_true, if_pos hlt]
              rw [show (retryFrom t rc f (attempt + 1) (some err)).attempts + 1 - 1 =
                ((retryFrom t rc f (attempt + 1) (some err)).attempts - 1) + 1 by omega]
              rw [List.range'_succ, List.map_cons, ← h2]
            · simp only [retryFrom, ht, hs, if_true, if_pos hlt]
              omega
          · rw [Bool.not_eq_true] at hs
            simp [retryFrom, ht, hs]

/-- When every attempt fails and no failure is a client error, the loop uses up
all its fuel and ends with the synthesized error response carrying the message
of the error of the final attempt. -/
theorem retryFrom_all_fail (e : Nat → TransportError) (rc : RetryConfig)
    (hc : ∀ k, isClientError (e k) = false) :
    ∀ fuel attempt last, 1 ≤ fuel → fuel + attempt = rc.maxAttempts + 1 →
      (retryFrom (fun k => AttemptOutcome.failure (e k)) rc fuel attempt last).resp =
        errorResponse (some (e rc.maxAttempts)) ∧
      (retryFrom (fun k => AttemptOutcome.failure (e k)) rc fuel attempt last).attempts =
        fuel := by
  intro fuel
  induction fuel with
  | zero => intro attempt last h _; omega
  | succ f ih =>
      intro attempt last _ hsum
      by_cases hf : f = 0
      · subst hf
        have ha : attempt = rc.maxAttempts := by omega
        subst ha
        have hstop : shouldRetry (e rc.maxAttempts) rc.maxAttempts rc.maxAttempts = false := by
          unfold shouldRetry
          rw [if_pos (by omega)]
        simp [retryFrom, hstop]
      · have hlt : attempt < rc.maxAttempts := by omega
        have hs : shouldRetry (e attempt) attempt rc.maxAttempts = true := by
          unfold shouldRetry
          rw [if_neg (by omega), hc attempt]
          simp
        obtain ⟨h1, h2⟩ := ih (attempt + 1) (some (e attempt)) (by omega) (by omega)
        refine ⟨?_, ?_⟩
        · simp only [retryFrom, hs, if_true, if_pos hlt]
          exact h1
        · simp only [retryFrom, hs, if_true, if_pos hlt]
          omega

/-- Delay list of the whole loop: entry `k` is the delay awaited after attempt
`k+1` (1-indexed), namely `getRetryDelay (k+1)`. -/
theorem callAdapterLoop_delays (t : Nat → AttemptOutcome) (rc : RetryConfig) :
    (callAdapterLoop t rc).delays =
      (List.range' 1 ((callAdapterLoop t rc).attempts - 1)).map
        (fun j => getRetryDelay j rc) := by
  unfold callAdapterLoop
  exact (retryFrom_inv t rc rc.maxAttempts 1 none (by omega)).2.1

/-- Claim C2: callAdapter raises exactly on an unknown adapter identifier, and
does so independently of the transport and before any attempt; every valid
identifier yields a value; and when all attempts fail retryably the value is
the synthesized `error` response carrying the message of the error of the last
attempt. -/
theorem C2_callAdapter_validation_and_exhaustion :
    (∀ (id : String) (t : Nat → AttemptOutcome) (rc : RetryConfig),
        isValidAdapterId id = false →
        callAdapter id t rc = Except.error ("Invalid adapter ID: " ++ id))
  ∧ (∀ (id : String) (t : Nat → AttemptOutcome) (rc : RetryConfig),
        isValidAdapterId id = true →
        callAdapter id t rc = Except.ok (callAdapterLoop t rc))
  ∧ (∀ (id : String) (e : Nat → TransportError) (rc : RetryConfig),
        isValidAdapterId id = true → 1 ≤ rc.maxAttempts →
        (∀ k, isClientError (e k) = false) →
        callAdapter id (fun k => AttemptOutcome.failure (e k)) rc =
          Except.ok (callAdapterLoop (fun k => AttemptOutcome.failure (e k)) rc) ∧
        (callAdapterLoop (fun k => AttemptOutcome.failure (e k)) rc).resp.status =
          RespStatus.error ∧
        (callAdapterLoop (fun k => AttemptOutcome.failure (e k)) rc).resp.error =
          some (e rc.maxAttempts).message) := by
  refine ⟨?_, ?_, ?_⟩
  · intro id t rc h
    simp [callAdapter, h]
  · intro id t rc h
    simp [callAdapter, h]
  · intro id e rc hid hM hc
    have hr := (retryFrom_all_fail e rc hc rc.maxAttempts 1 none hM (by omega)).1
    refine ⟨by simp [callAdapter, hid], ?_, ?_⟩
    · unfold callAdapterLoop
      rw [hr]
      rfl
    · unfold callAdapterLoop
      rw [hr]
      rfl

/-- The constantly failing transport errors used in the concrete witnesses. -/
def eW : Nat → TransportError := fun k => ⟨"boom " ++ toString k, some 500⟩

/-- Witness for C2 at concrete inputs: an unknown identifier raises, and a
valid identifier with a transport that always fails with status 500 yields the
error result carrying the message of the last (third) attempt. -/
theorem C2_witness :
    callAdapter "nope" (fun k => AttemptOutcome.failure (eW k)) defaultRetryConfig =
      Except.error "Invalid adapter ID: nope" ∧
    (callAdapterLoop (fun k => AttemptOutcome.failure (eW k)) defaultRetryConfig).resp.error =
      some "boom 3" := by
  constructor
  · exact C2_callAdapter_validation_and_exhaustion.1 "nope"
      (fun k => AttemptOutcome.failure (eW k)) defaultRetryConfig (by decide)
  · exact (C2_callAdapter_validation_and_exhaustion.2.2 "db-logger" eW
      defaultRetryConfig (by decide) (by decide) (fun k => rfl)).2.2

/-- Claim C3: the loop performs at most `maxAttempts` attempts; exactly one
attempt when the first failure carries a 4xx status; the delay before attempt
`k` (for `k ≥ 2`) is `min(baseDelay * backoffMultiplier^(k-2), maxDelay)`; and
there is no delay before attempt 1 (one fewer delay than attempts). -/
theorem C3_retry_attempts_and_delays :
    (∀ t rc, (callAdapterLoop t rc).attempts ≤ rc.maxAttempts)
  ∧ (∀ t e rc, 1 ≤ rc.maxAttempts → t 1 = AttemptOutcome.failure e →
        isClientError e = true → (callAdapterLoop t rc).attempts = 1)
  ∧ (∀ t rc k, 2 ≤ k → k ≤ (callAdapterLoop t rc).attempts →
        (callAdapterLoop t rc).delays[k - 2]? =
          some (min (rc.baseDelay * rc.backoffMultiplier ^ (k - 2)) rc.maxDelay))
  ∧ (∀ t rc, (callAdapterLoop t rc).delays.length =
        (callAdapterLoop t rc).attempts - 1) := by
  refine ⟨?_, ?_, ?_, ?_⟩
  · intro t rc
    unfold callAdapterLoop
    exact (retryFrom_inv t rc rc.maxAttempts 1 none (by omega)).1
  · intro t e rc hM ht hcl
    obtain ⟨m, hm⟩ : ∃ m, rc.maxAttempts = m + 1 := ⟨rc.maxAttempts - 1, by omega⟩
    have hs : shouldRetry e 1 rc.maxAttempts = false := by
      unfold shouldRetry
      by_cases h1 : 1 ≥ rc.maxAttempts
      · rw [if_pos h1]
      · rw [if_neg h1, hcl]
        simp
    simp only [callAdapterLoop, hm]
    simp [retryFrom, ht, hs]
  · intro t rc k hk2 hkn
    have hlt : k - 2 < (callAdapterLoop t rc).attempts - 1 := by omega
    rw [callAdapterLoop_delays, List.getElem?_map, List.getElem?_range' 1 1 hlt]
    have h12 : 1 + 1 * (k - 2) = k - 1 := by omega
    rw [h12]
    simp only [Option.map_some', getRetryDelay]
    rw [show k - 1 - 1 = k - 2 by omega]
  · intro t rc
    rw [callAdapterLoop_delays, List.length_map, List.length_range']

/-- Witness for C3 at concrete inputs: with the default policy and a transport
failing with status 500 on every attempt, 3 attempts run with delays 1000 and
2000; a first failure with status 404 stops after exactly one attempt. -/
theorem C3_witness :
    (callAdapterLoop (fun k => AttemptOutcome.failure (eW k)) defaultRetryConfig).attempts ≤
      defaultRetryConfig.maxAttempts ∧
    (callAdapterLoop (fun _ => AttemptOutcome.failure ⟨"bad", some 404⟩)
      defaultRetryConfig).attempts = 1 ∧
    (callAdapterLoop (fun k => AttemptOutcome.failure (eW k)) defaultRetryConfig).delays[0]? =
      some (min (defaultRetryConfig.baseDelay * defaultRetryConfig.backoffMultiplier ^ 0)
        defaultRetryConfig.maxDelay) := by
  refine ⟨?_, ?_, ?_⟩
  · exact C3_retry_attempts_and_delays.1 (fun k => AttemptOutcome.failure (eW k))
      defaultRetryConfig
  · exact C3_retry_attempts_and_delays.2.1
      (fun _ => AttemptOutcome.failure ⟨"bad", some 404⟩) ⟨"bad", some 404⟩
      defaultRetryConfig (by decide) rfl (by decide)
  · exact C3_retry_attempts_and_delays.2.2.1
      (fun k => AttemptOutcome.failure (eW k)) defaultRetryConfig 2 (by decide) (by decide)

/-! ### Sequential chain lemmas -/

/-- The first call a non-empty pre-processing chain makes is to the first
listed adapter, with the initial input and context. -/
theorem runBeforeLLMAux_trace_head (call : CallOracle) (id : String)
    (rest : List String) (cur : String) (ctx : Ctx) :
    ((runBeforeLLMAux call (id :: rest) cur ctx).2).head? = some ⟨id, some cur, ctx⟩ := by
  unfold runBeforeLLMAux
  match h : call id (some cur) ctx with
  | Except.error e => simp [h]
  | Except.ok resp =>
      by_cases hs : resp.status = RespStatus.error
      · simp [h, hs]
      · simp [h, hs]

/-- One unfolding step of the pre-processing chain when the head call returns
a non-error result. -/
theorem runBeforeLLMAux_cons_ok (call : CallOracle) (id : String)
    (rest : List String) (cur : String) (ctx : Ctx) (resp : AdapterResponse)
    (hcall : call id (some cur) ctx = Except.ok resp)
    (hs : resp.status ≠ RespStatus.error) :
    runBeforeLLMAux call (id :: rest) cur ctx =
      ((runBeforeLLMAux call rest
          (if truthyOutput resp.output then resp.output.getD cur else cur)
          (if resp.data.isSome then objAssign ctx (resp.data.getD []) else ctx)).1,
       ⟨id, some cur, ctx⟩ ::
        (runBeforeLLMAux call rest
          (if truthyOutput resp.output then resp.output.getD cur else cur)
          (if resp.data.isSome then objAssign ctx (resp.data.getD []) else ctx)).2) := by
  rw [runBeforeLLMAux.eq_def]
  simp [hcall, hs]

/-- Adjacent calls in a pre-processing trace: the call following call `i`
receives the textual output of call `i` when one is (truthily) present,
otherwise the same input, and receives the context of call `i` merged with the
`data` update of the result of call `i` when one is present. -/
theorem runBeforeLLMAux_adjacent (call : CallOracle) :
    ∀ (ids : List String) (cur : String) (ctx : Ctx) (i : Nat) (ci cnext : ExecCall),
      (runBeforeLLMAux call ids cur ctx).2[i]? = some ci →
      (runBeforeLLMAux call ids cur ctx).2[i + 1]? = some cnext →
      ∃ resp, call ci.adapterId ci.input ci.context = Except.ok resp ∧
        resp.status = RespStatus.ok ∧
        cnext.input = (if truthyOutput resp.output then resp.output else ci.input) ∧
        cnext.context =
          (if resp.data.isSome then objAssign ci.context (resp.data.getD [])
           else ci.context) := by
  intro ids
  induction ids with
  | nil =>
      intro cur ctx i ci cnext h1 _
      simp [runBeforeLLMAux] at h1
  | cons id rest ih =>
      intro cur ctx i ci cnext h1 h2
      match hcall : call id (some cur) ctx with
      | Except.error e =>
          simp [runBeforeLLMAux, hcall] at h2
      | Except.ok resp =>
          by_cases hs : resp.status = RespStatus.error
          · simp [runBeforeLLMAux, hcall, hs] at h2
          · rw [runBeforeLLMAux_cons_ok call id rest cur ctx resp hcall hs] at h1 h2
            cases i with
            | zero =>
                simp only [List.getElem?_cons_zero, Option.some_inj] at h1
                simp only [Nat.zero_add, List.getElem?_cons_succ] at h2
                subst h1
                match rest with
                | [] => simp [runBeforeLLMAux] at h2
                | r :: rest2 =>
                    have hhead := runBeforeLLMAux_trace_head call r rest2
                      (if truthyOutput resp.output then resp.output.getD cur else cur)
                      (if resp.data.isSome then objAssign ctx (resp.data.getD []) else ctx)
                    rw [List.head?_eq_getElem?] at hhead
                    rw [hhead, Option.some_inj] at h2
                    subst h2
                    refine ⟨resp, hcall, ?_, ?_, rfl⟩
                    · cases hst : resp.status with
                      | ok => rfl
                      | error => exact absurd hst hs
                    · show some (if truthyOutput resp.output then resp.output.getD cur else cur) =
                        if truthyOutput resp.output then resp.output else some cur
                      by_cases ho : truthyOutput resp.output = true
                      · rw [if_pos ho, if_pos ho]
                        match hout : resp.output with
                        | some s => rfl
                        | none => rw [hout] at ho; simp [truthyOutput] at ho
                      · rw [if_neg ho, if_neg ho]
            | succ j =>
                simp only [List.getElem?_cons_succ] at h1 h2
                exact ih _ _ j ci cnext h1 h2

/-- Every input threaded through a pre-processing chain stays non-empty when
the initial input is non-empty: the input of every call in the trace is a
present, non-empty string. -/
theorem runBeforeLLMAux_inputs_nonempty (call : CallOracle) :
    ∀ (ids : List String) (cur : String) (ctx : Ctx), cur ≠ "" →
      ∀ c ∈ (runBeforeLLMAux call ids cur ctx).2, ∃ s, c.input = some s ∧ s ≠ "" := by
  intro ids
  induction ids with
  | nil => intro cur ctx _ c hc; simp [runBeforeLLMAux] at hc
  | cons id rest ih =>
      intro cur ctx hcur c hc
      match hcall : call id (some cur) ctx with
      | Except.error e =>
          simp [runBeforeLLMAux, hcall] at hc
          rw [hc]
          exact ⟨cur, rfl, hcur⟩
      | Except.ok resp =>
          by_cases hs : resp.status = RespStatus.error
          · simp [runBeforeLLMAux, hcall, hs] at hc
            rw [hc]
            exact ⟨cur, rfl, hcur⟩
          · rw [runBeforeLLMAux_cons_ok call id rest cur ctx resp hcall hs] at hc
            simp only [List.mem_cons] at hc
            cases hc with
            | inl hhd => rw [hhd]; exact ⟨cur, rfl, hcur⟩
            | inr htl =>
                refine ih _ _ ?_ c htl
                by_cases ho : truthyOutput resp.output = true
                · rw [if_pos ho]
                  match hout : resp.output with
                  | some s =>
                      rw [hout] at ho
                      simp only [truthyOutput, bne_iff_ne, ne_eq] at ho
                      simpa using ho
                  | none => rw [hout] at ho; simp [truthyOutput] at ho
                · rw [if_neg ho]
                  exact hcur

/-- If the call at position `i` of a pre-processing trace returned an
`error`-status result, the chain aborted exactly there: the entry point throws
the error naming that adapter and its message, and no further adapter is
invoked (the trace has length `i + 1`). -/
theorem runBeforeLLMAux_abort (call : CallOracle) :
    ∀ (ids : List String) (cur : String) (ctx : Ctx) (i : Nat) (ci : ExecCall)
      (resp : AdapterResponse),
      (runBeforeLLMAux call ids cur ctx).2[i]? = some ci →
      call ci.adapterId ci.input ci.context = Except.ok resp →
      resp.status = RespStatus.error →
      (runBeforeLLMAux call ids cur ctx).1 = Except.error
        ("Adapter " ++ ci.adapterId ++ " failed after retries: " ++ errString resp.error) ∧
      (runBeforeLLMAux call ids cur ctx).2.length = i + 1 := by
  intro ids
  induction ids with
  | nil => intro cur ctx i ci resp h1 _ _; simp [runBeforeLLMAux] at h1
  | cons id rest ih =>
      intro cur ctx i ci resp h1 hcall hst
      match hcall0 : call id (some cur) ctx with
      | Except.error e =>
          match i with
          | 0 =>
              simp only [runBeforeLLMAux, hcall0, List.getElem?_cons_zero,
                Option.some_inj] at h1
              subst h1
              have hcontra : Except.error (α := AdapterResponse) e = Except.ok resp :=
                hcall0.symm.trans hcall
              exact absurd hcontra (by simp)
          | j + 1 =>
              simp [runBeforeLLMAux, hcall0] at h1
      | Except.ok resp0 =>
          by_cases hs : resp0.status = RespStatus.error
          · match i with
            | 0 =>
                simp only [runBeforeLLMAux, hcall0, hs, if_true, List.getElem?_cons_zero,
                  Option.some_inj, if_pos] at h1
                subst h1
                have hre : Except.ok (ε := String) resp0 = Except.ok resp :=
                  hcall0.symm.trans hcall
                have hre2 : resp0 = resp := by
                  injection hre
                subst hre2
                constructor
                · simp [runBeforeLLMAux, hcall0, hs]
                · simp [runBeforeLLMAux, hcall0, hs]
            | j + 1 =>
                simp [runBeforeLLMAux, hcall0, hs] at h1
          · rw [runBeforeLLMAux_cons_ok call id rest cur ctx resp0 hcall0 hs] at h1 ⊢
            match i with
            | 0 =>
                simp only [List.getElem?_cons_zero, Option.some_inj] at h1
                subst h1
                have hre : Except.ok (ε := String) resp0 = Except.ok resp :=
                  hcall0.symm.trans hcall
                have hre2 : resp0 = resp := by
                  injection hre
                rw [hre2] at hs
                exact absurd hst hs
            | j + 1 =>
                simp only [List.getElem?_cons_succ] at h1
                obtain ⟨ha, hb⟩ := ih _ _ j ci resp h1 hcall hst
                exact ⟨ha, by simp only [List.length_cons, hb]⟩

/-! ### Claims about the sequential chains -/

/-- Concrete oracle for the C4 example: A returns output "y" with context
update `foo := 1`; every other adapter returns output "z" and no update. -/
def exCallC4 : CallOracle := fun id _ _ =>
  if id = "A" then Except.ok ⟨some "y", RespStatus.ok, some [("foo", 1)], none⟩
  else Except.ok ⟨some "z", RespStatus.ok, none, none⟩

/-- Claim C4: in runBeforeLLM the truthy textual output of adapter i becomes
the input of adapter i+1 (otherwise the previous input is carried forward) and
the data update of adapter i is merged into the context before adapter i+1 is
invoked; and on the spec example (A ↦ output "y", data foo:=1; B ↦ output "z";
input "x") the result is prompt "z" with the initial context extended by
foo := 1. -/
theorem C4_runBeforeLLM_threading :
    (∀ (call : CallOracle) (input : String) (ids : List String) (ctx : Ctx)
        (i : Nat) (ci cnext : ExecCall),
        (runBeforeLLMCalls call input ids ctx)[i]? = some ci →
        (runBeforeLLMCalls call input ids ctx)[i + 1]? = some cnext →
        ∃ resp, call ci.adapterId ci.input ci.context = Except.ok resp ∧
          resp.status = RespStatus.ok ∧
          cnext.input = (if truthyOutput resp.output then resp.output else ci.input) ∧
          cnext.context =
            (if resp.data.isSome then objAssign ci.context (resp.data.getD [])
             else ci.context))
  ∧ runBeforeLLM exCallC4 "x" ["A", "B"] [("init", 5)] =
      Except.ok ("z", [("init", 5), ("foo", 1)]) := by
  constructor
  · intro call input ids ctx i ci cnext h1 h2
    exact runBeforeLLMAux_adjacent call ids input ctx i ci cnext h1 h2
  · rfl

/-- Witness for C4: the threading property applied to the spec example at
position 0 of the trace; B receives A's output "y" and the merged context. -/
theorem C4_witness :
    ∃ resp, exCallC4 "A" (some "x") [("init", 5)] = Except.ok resp ∧
      resp.status = RespStatus.ok ∧
      some "y" = (if truthyOutput resp.output then resp.output else some "x") ∧
      [("init", 5), ("foo", 1)] =
        (if resp.data.isSome then objAssign [("init", 5)] (resp.data.getD [])
         else [("init", 5)]) :=
  C4_runBeforeLLM_threading.1 exCallC4 "x" ["A", "B"] [("init", 5)] 0
    ⟨"A", some "x", [("init", 5)]⟩ ⟨"B", some "y", [("init", 5), ("foo", 1)]⟩ rfl rfl

/-- Concrete oracle for the C5 example: A yields an error invocation result
(message "E"); every other adapter succeeds. -/
def exCallC5 : CallOracle := fun id _ _ =>
  if id = "A" then Except.ok ⟨none, RespStatus.error, none, some "E"⟩
  else Except.ok ⟨some "z", RespStatus.ok, none, none⟩

/-- Claim C5: runBeforeLLM aborts on the first adapter whose invocation result
has status error, throwing an error naming that adapter and its message; no
later adapter is invoked (the trace ends exactly there) and no pipeline output
is returned; on the spec example, A fails with "E", the chain throws naming A,
and B is never invoked. -/
theorem C5_runBeforeLLM_abort_on_error :
    (∀ (call : CallOracle) (input : String) (ids : List String) (ctx : Ctx)
        (i : Nat) (ci : ExecCall) (resp : AdapterResponse),
        (runBeforeLLMCalls call input ids ctx)[i]? = some ci →
        call ci.adapterId ci.input ci.context = Except.ok resp →
        resp.status = RespStatus.error →
        runBeforeLLM call input ids ctx = Except.error
          ("Adapter " ++ ci.adapterId ++ " failed after retries: " ++
            errString resp.error) ∧
        (runBeforeLLMCalls call input ids ctx).length = i + 1)
  ∧ (runBeforeLLM exCallC5 "x" ["A", "B"] [] =
        Except.error "Adapter A failed after retries: E" ∧
     runBeforeLLMCalls exCallC5 "x" ["A", "B"] [] = [⟨"A", some "x", []⟩]) := by
  constructor
  · intro call input ids ctx i ci resp h1 h2 h3
    exact runBeforeLLMAux_abort call ids input ctx i ci resp h1 h2 h3
  · exact ⟨rfl, rfl⟩

/-- Witness for C5: the abort property applied to the spec example at
position 0 of the trace. -/
theorem C5_witness :
    runBeforeLLM exCallC5 "x" ["A", "B"] [] =
      Except.error "Adapter A failed after retries: E" ∧
    (runBeforeLLMCalls exCallC5 "x" ["A", "B"] []).length = 0 + 1 :=
  C5_runBeforeLLM_abort_on_error.1 exCallC5 "x" ["A", "B"] [] 0
    ⟨"A", some "x", []⟩ ⟨none, RespStatus.error, none, some "E"⟩ rfl rfl rfl

/-- Concrete oracle for the C10 example: A succeeds with the empty string as
output; every other adapter returns output "z". -/
def exCallC10 : CallOracle := fun id _ _ =>
  if id = "A" then Except.ok ⟨some "", RespStatus.ok, none, none⟩
  else Except.ok ⟨some "z", RespStatus.ok, none, none⟩

/-- Claim C10: an ok result whose output is the empty string is treated like
an absent output (the truthiness check does not distinguish them): the
previous input is carried forward unchanged to the next adapter, and hence no
adapter can make the threaded input empty when the initial input is
non-empty. -/
theorem C10_empty_output_carried_forward :
    (∀ (call : CallOracle) (input : String) (ids : List String) (ctx : Ctx)
        (i : Nat) (ci cnext : ExecCall) (resp : AdapterResponse),
        (runBeforeLLMCalls call input ids ctx)[i]? = some ci →
        (runBeforeLLMCalls call input ids ctx)[i + 1]? = some cnext →
        call ci.adapterId ci.input ci.context = Except.ok resp →
        resp.output = some "" →
        cnext.input = ci.input)
  ∧ (∀ (call : CallOracle) (input : String) (ids : List String) (ctx : Ctx),
        input ≠ "" →
        ∀ c ∈ runBeforeLLMCalls call input ids ctx, ∃ s, c.input = some s ∧ s ≠ "") := by
  constructor
  · intro call input ids ctx i ci cnext resp h1 h2 hcall hout
    obtain ⟨resp2, hcall2, _, hin, _⟩ :=
      runBeforeLLMAux_adjacent call ids input ctx i ci cnext h1 h2
    have hre : Except.ok (ε := String) resp2 = Except.ok resp :=
      hcall2.symm.trans hcall
    have hre2 : resp2 = resp := by injection hre
    subst hre2
    rw [hout] at hin
    simpa [truthyOutput] using hin
  · intro call input ids ctx hne c hc
    exact runBeforeLLMAux_inputs_nonempty call ids input ctx hne c hc

/-- Witness for C10: on the concrete oracle where A outputs the empty string,
B receives the original input "x" unchanged, and every threaded input is a
non-empty string. -/
theorem C10_witness :
    ((⟨"B", some "x", []⟩ : ExecCall).input = (⟨"A", some "x", []⟩ : ExecCall).input) ∧
    (∃ s, (⟨"A", some "x", ([] : Ctx)⟩ : ExecCall).input = some s ∧ s ≠ "") := by
  constructor
  · exact C10_empty_output_carried_forward.1 exCallC10 "x" ["A", "B"] [] 0
      ⟨"A", some "x", []⟩ ⟨"B", some "x", []⟩ ⟨some "", RespStatus.ok, none, none⟩
      rfl rfl rfl rfl
  · exact C10_empty_output_carried_forward.2 exCallC10 "x" ["A", "B"] [] (by decide)
      ⟨"A", some "x", []⟩ (by decide)

/-- Concrete oracle for the C1 counterexample: A returns the context update
`foo := 1`; every other adapter succeeds with no update. -/
def afterCallC1 : CallOracle := fun id _ _ =>
  if id = "A" then Except.ok ⟨none, RespStatus.ok, some [("foo", 1)], none⟩
  else Except.ok ⟨none, RespStatus.ok, none, none⟩

/-- Counterexample to claim C1 as stated: in runAfterLLM over ["A", "B"] with
the empty initial context, A returns the context update foo := 1, yet the call
to B receives the empty context, in which "foo" is absent — the data update of
an earlier adapter is not merged before the next adapter is invoked. -/
theorem C1_counterexample :
    afterCallC1 "A" none [] =
      Except.ok ⟨none, RespStatus.ok, some [("foo", 1)], none⟩ ∧
    (runAfterLLMCalls afterCallC1 [] ["A", "B"])[1]? = some ⟨"B", none, []⟩ ∧
    ctxGet [] "foo" = none :=
  ⟨rfl, rfl, rfl⟩

/-- Claim C1 (amended): runAfterLLM invokes every adapter in the chain with a
null input against the initial context unchanged; the `data` context updates
returned by adapters are discarded, so later adapters do not observe earlier
adapters' contributions. -/
theorem C1_runAfterLLM_context_unchanged :
    ∀ (call : CallOracle) (ctx : Ctx) (ids : List String),
      ∀ c ∈ runAfterLLMCalls call ctx ids, c.context = ctx ∧ c.input = none := by
  intro call ctx ids
  induction ids with
  | nil => intro c hc; simp [runAfterLLMCalls, runAfterLLMAux] at hc
  | cons id rest ih =>
      intro c hc
      match hcall : call id none ctx with
      | Except.error e =>
          simp [runAfterLLMCalls, runAfterLLMAux, hcall] at hc
          rw [hc]
          exact ⟨rfl, rfl⟩
      | Except.ok resp =>
          by_cases hs : resp.status = RespStatus.error
          · simp [runAfterLLMCalls, runAfterLLMAux, hcall, hs] at hc
            rw [hc]
            exact ⟨rfl, rfl⟩
          · have hstep : (runAfterLLMAux call (id :: rest) ctx).2 =
                ⟨id, none, ctx⟩ :: (runAfterLLMAux call rest ctx).2 := by
              rw [runAfterLLMAux.eq_def]
              simp [hcall, hs]
            rw [runAfterLLMCalls] at hc
            rw [hstep] at hc
            simp only [List.mem_cons] at hc
            cases hc with
            | inl hhd => rw [hhd]; exact ⟨rfl, rfl⟩
            | inr htl => exact ih c htl

/-- Witness for the amended C1: on the counterexample oracle, the call to B of
the chain over ["A", "B"] carries the unchanged empty context and null input. -/
theorem C1_witness :
    (⟨"B", none, []⟩ : ExecCall).context = ([] : Ctx) ∧
    (⟨"B", none, []⟩ : ExecCall).input = none :=
  C1_runAfterLLM_context_unchanged afterCallC1 [] ["A", "B"]
    ⟨"B", none, []⟩ (by decide)

/-! ### Parallel fan-out lemmas -/

/-- Zipping a list with its own image pairs each element with its image. -/
theorem zip_self_map {α β : Type} (f : α → β) :
    ∀ l : List α, l.zip (l.map f) = l.map (fun a => (a, f a)) := by
  intro l
  induction l with
  | nil => rfl
  | cons a rest ih => simp [ih]

/-- The per-result context merge performed inside the forEach pass of
runParallel: a present `data` object is merged, otherwise the accumulator is
unchanged. -/
def mergeData (acc : Ctx) (resp : AdapterResponse) : Ctx :=
  if resp.data.isSome then objAssign acc (resp.data.getD []) else acc

/-- When no call of the batch throws, awaiting the batch yields the fulfilled
results, one per listed adapter. -/
theorem awaitAll_batch_ok (call : CallOracle) (input : Option String) (ctx : Ctx)
    (f : String → AdapterResponse) :
    ∀ ids : List String, (∀ id ∈ ids, call id input ctx = Except.ok (f id)) →
      awaitAll (batchCallAdapters call ids input ctx) = Except.ok (ids.map f) := by
  intro ids
  induction ids with
  | nil => intro _; rfl
  | cons a rest ih =>
      intro hall
      have hrest := ih (fun id hid => hall id (List.mem_cons_of_mem a hid))
      unfold batchCallAdapters at hrest ⊢
      rw [List.map_cons, hall a (List.mem_cons_self a rest), awaitAll, hrest,
        List.map_cons]
      rfl

/-- When every fulfilled result is non-error, the forEach pass merges all data
updates in list order. -/
theorem parallelFold_all_ok :
    ∀ (l : List (String × AdapterResponse)) (acc : Ctx),
      (∀ p ∈ l, p.2.status ≠ RespStatus.error) →
      parallelFold l acc = Except.ok (l.foldl (fun a p => mergeData a p.2) acc) := by
  intro l
  induction l with
  | nil => intro acc _; rfl
  | cons p rest ih =>
      intro acc hall
      have hs := hall p (List.mem_cons_self p rest)
      obtain ⟨pid, resp⟩ := p
      simp only [parallelFold, List.foldl_cons]
      rw [if_neg hs]
      exact ih _ (fun q hq => hall q (List.mem_cons_of_mem _ hq))

/-- When the fulfilled result at position `i` is the first (in list order)
with an `error` status, the forEach pass throws the error naming that
adapter. -/
theorem parallelFold_first_error :
    ∀ (l : List (String × AdapterResponse)) (acc : Ctx) (i : Nat)
      (id : String) (resp : AdapterResponse),
      l[i]? = some (id, resp) → resp.status = RespStatus.error →
      (∀ j, j < i → ∀ q, l[j]? = some q → q.2.status ≠ RespStatus.error) →
      parallelFold l acc = Except.error
        ("Adapter " ++ id ++ " failed after retries: " ++ errString resp.error) := by
  intro l
  induction l with
  | nil => intro acc i id resp h1 _ _; simp at h1
  | cons p rest ih =>
      intro acc i id resp h1 hst hearlier
      match i with
      | 0 =>
          simp only [List.getElem?_cons_zero, Option.some_inj] at h1
          subst h1
          simp [parallelFold, hst]
      | j + 1 =>
          have hs0 := hearlier 0 (by omega) p (by simp)
          obtain ⟨pid, resp0⟩ := p
          simp only [List.getElem?_cons_succ] at h1
          simp only [parallelFold]
          rw [if_neg hs0]
          refine ih _ j id resp h1 hst ?_
          intro j2 hj2 q hq
          exact hearlier (j2 + 1) (by omega) q (by simpa using hq)

/-- Concrete oracle for the C6 example: A updates `x := 1`, every other
adapter updates `x := 2, y := 1`; no call throws. -/
def parCallC6 : CallOracle := fun id _ _ =>
  if id = "A" then Except.ok ⟨none, RespStatus.ok, some [("x", 1)], none⟩
  else Except.ok ⟨none, RespStatus.ok, some [("x", 2), ("y", 1)], none⟩

/-- Concrete oracle for the C6 error example: B yields an error result, every
other adapter succeeds; no call throws. -/
def parCallC6err : CallOracle := fun id _ _ =>
  if id = "B" then Except.ok ⟨none, RespStatus.error, none, some "boom"⟩
  else Except.ok ⟨none, RespStatus.ok, none, none⟩

/-- The fulfilled-response table of `parCallC6`. -/
def fC6 : String → AdapterResponse := fun id =>
  if id = "A" then ⟨none, RespStatus.ok, some [("x", 1)], none⟩
  else ⟨none, RespStatus.ok, some [("x", 2), ("y", 1)], none⟩

/-- The fulfilled-response table of `parCallC6err`. -/
def fC6err : String → AdapterResponse := fun id =>
  if id = "B" then ⟨none, RespStatus.error, none, some "boom"⟩
  else ⟨none, RespStatus.ok, none, none⟩

/-- Claim C6: when every call of the batch fulfills (with results given by the
table `f` — a rejected call would instead make the awaited Promise.all throw
before any merging), runParallel merges every adapter's data update into a
copy of the initial context in original list order; each adapter is invoked
against the same initial input and context, so the merged context is a
deterministic function of the fulfilled results, which Promise.all exposes
positionally regardless of resolution order.  When additionally some fulfilled
result has error status, runParallel throws naming the first failing adapter
in list order, after the whole batch has settled (the batch always holds one
settled call per listed adapter).  On the spec example A ↦ x := 1,
B ↦ x := 2, y := 1 the resulting context has x = 2 and y = 1. -/
theorem C6_runParallel_deterministic_merge :
    (∀ (call : CallOracle) (input : Option String) (ids : List String) (ctx : Ctx)
        (f : String → AdapterResponse),
        (∀ id ∈ ids, call id input ctx = Except.ok (f id)) →
        (∀ id ∈ ids, (f id).status ≠ RespStatus.error) →
        runParallel call input ids ctx =
          Except.ok (ids.foldl (fun acc id => mergeData acc (f id)) ctx))
  ∧ (∀ (call : CallOracle) (input : Option String) (ids : List String) (ctx : Ctx)
        (f : String → AdapterResponse) (i : Nat) (id : String),
        (∀ id2 ∈ ids, call id2 input ctx = Except.ok (f id2)) →
        ids[i]? = some id → (f id).status = RespStatus.error →
        (∀ j, j < i → ∀ id2, ids[j]? = some id2 →
          (f id2).status ≠ RespStatus.error) →
        runParallel call input ids ctx = Except.error
          ("Adapter " ++ id ++ " failed after retries: " ++ errString (f id).error))
  ∧ (∀ (call : CallOracle) (ids : List String) (input : Option String) (ctx : Ctx),
        (batchCallAdapters call ids input ctx).length = ids.length)
  ∧ (runParallel parCallC6 (some "x") ["A", "B"] [("c", 7)] =
        Except.ok [("c", 7), ("x", 2), ("y", 1)] ∧
     ctxGet [("c", 7), ("x", 2), ("y", 1)] "x" = some 2 ∧
     ctxGet [("c", 7), ("x", 2), ("y", 1)] "y" = some 1) := by
  refine ⟨?_, ?_, ?_, ⟨rfl, rfl, rfl⟩⟩
  · intro call input ids ctx f hcalls hstat
    unfold runParallel
    rw [awaitAll_batch_ok call input ctx f ids hcalls]
    show parallelFold (ids.zip (ids.map f)) ctx = _
    rw [zip_self_map]
    have hmem : ∀ p ∈ ids.map (fun a => (a, f a)),
        p.2.status ≠ RespStatus.error := by
      intro p hp
      obtain ⟨id2, hid2, hpe⟩ := List.mem_map.mp hp
      subst hpe
      exact hstat id2 hid2
    rw [parallelFold_all_ok (ids.map (fun a => (a, f a))) ctx hmem, List.foldl_map]
  · intro call input ids ctx f i id hcalls h1 hst hearlier
    unfold runParallel
    rw [awaitAll_batch_ok call input ctx f ids hcalls]
    show parallelFold (ids.zip (ids.map f)) ctx = _
    rw [zip_self_map]
    refine parallelFold_first_error _ ctx i id (f id) ?_ hst ?_
    · rw [List.getElem?_map, h1]
      rfl
    · intro j hj q hq
      rw [List.getElem?_map] at hq
      match hx : ids[j]? with
      | none => rw [hx] at hq; simp at hq
      | some id2 =>
          rw [hx] at hq
          simp only [Option.map_some', Option.some_inj] at hq
          rw [← hq]
          exact hearlier j hj id2 hx
  · intro call ids input ctx
    simp [batchCallAdapters]

/-- Witness for C6: the deterministic merge applied to the spec example, and
the first-failure rule applied to a batch where B (position 1) fails; in both,
every call fulfills. -/
theorem C6_witness :
    runParallel parCallC6 (some "x") ["A", "B"] [("c", 7)] =
      Except.ok ((["A", "B"]).foldl
        (fun acc id => mergeData acc (fC6 id)) [("c", 7)]) ∧
    runParallel parCallC6err (some "x") ["A", "B"] [] =
      Except.error ("Adapter " ++ "B" ++ " failed after retries: " ++
        errString (fC6err "B").error) := by
  constructor
  · refine C6_runParallel_deterministic_merge.1 parCallC6 (some "x") ["A", "B"]
      [("c", 7)] fC6 ?_ ?_
    · intro id hid
      fin_cases hid
      · rfl
      · rfl
    · intro id hid
      fin_cases hid
      · decide
      · decide
  · refine C6_runParallel_deterministic_merge.2.1 parCallC6err (some "x") ["A", "B"]
      [] fC6err 1 "B" ?_ rfl rfl ?_
    · intro id hid
      fin_cases hid
      · rfl
      · rfl
    · intro j hj id2 hid2
      have hj0 : j = 0 := by omega
      subst hj0
      simp only [List.getElem?_cons_zero, Option.some_inj] at hid2
      subst hid2
      decide

/-! ### Health-state map lemmas -/

/-- Replacing the value stored under `id` leaves lookups of other keys
unchanged. -/
theorem find?_map_replace (v : AdapterHealth) (id k : String) (hk : k ≠ id) :
    ∀ st : List (String × AdapterHealth),
      (st.map (fun p => if p.1 = id then (id, v) else p)).find?
          (fun p => p.1 = k) =
        st.find? (fun p => p.1 = k) := by
  intro st
  induction st with
  | nil => rfl
  | cons a st2 ih =>
      by_cases ha : a.1 = id
      · rw [List.map_cons, if_pos ha,
          List.find?_cons_of_neg _ (by simp; exact fun h => hk (Eq.symm h)),
          List.find?_cons_of_neg _ (by simp [ha]; exact fun h => hk (Eq.symm h))]
        exact ih
      · rw [List.map_cons, if_neg ha]
        by_cases hak : a.1 = k
        · rw [List.find?_cons_of_pos _ (by simp [hak]),
            List.find?_cons_of_pos _ (by simp [hak])]
        · rw [List.find?_cons_of_neg _ (by simp [hak]),
            List.find?_cons_of_neg _ (by simp [hak])]
          exact ih

/-- Lookup after one Map.set: the written key reads back the written value,
every other key is unchanged. -/
theorem lookupHealth_updHealth (probe : String → AdapterHealth) (id k : String) :
    ∀ st : List (String × AdapterHealth),
      lookupHealth (updHealth probe st id) k =
        if k = id then some (probe id) else lookupHealth st k := by
  intro st
  induction st with
  | nil =>
      by_cases hk : k = id
      · simp [updHealth, lookupHealth, hk]
      · simp [updHealth, lookupHealth, hk]
        intro h
        exact absurd h.symm hk
  | cons a st2 ih =>
      by_cases ha : a.1 = id
      · have hany : ((a :: st2).any (fun p => decide (p.1 = id))) = true := by
          simp [List.any_cons, ha]
        rw [updHealth, if_pos hany, List.map_cons, if_pos ha]
        by_cases hk : k = id
        · subst hk
          rw [if_pos rfl]
          unfold lookupHealth
          rw [List.find?_cons_of_pos _ (by simp)]
          rfl
        · rw [if_neg hk]
          unfold lookupHealth
          rw [List.find?_cons_of_neg _ (by simp; exact fun h => hk (Eq.symm h)),
            List.find?_cons_of_neg _ (by simp [ha]; exact fun h => hk (Eq.symm h))]
          exact congrArg (Option.map (fun p => p.2))
            (find?_map_replace (probe id) id k hk st2)
      · by_cases h2 : (st2.any (fun p => decide (p.1 = id))) = true
        · have hany : ((a :: st2).any (fun p => decide (p.1 = id))) = true := by
            simp [List.any_cons, h2]
          rw [updHealth, if_pos hany, List.map_cons, if_neg ha]
          have ih2 := ih
          rw [updHealth, if_pos h2] at ih2
          by_cases hak : a.1 = k
          · have hki : k ≠ id := by
              rw [← hak]
              exact ha
            rw [if_neg hki]
            unfold lookupHealth
            rw [List.find?_cons_of_pos _ (by simp [hak]),
              List.find?_cons_of_pos _ (by simp [hak])]
          · unfold lookupHealth
            rw [List.find?_cons_of_neg _ (by simp [hak]),
              List.find?_cons_of_neg _ (by simp [hak])]
            exact ih2
        · simp only [Bool.not_eq_true] at h2
          have hany : ((a :: st2).any (fun p => decide (p.1 = id))) = false := by
            simp [List.any_cons, ha, h2]
          rw [updHealth, if_neg (by simp [hany]), List.cons_append]
          have ih2 := ih
          rw [updHealth, if_neg (by simp [h2])] at ih2
          by_cases hak : a.1 = k
          · have hki : k ≠ id := by
              rw [← hak]
              exact ha
            rw [if_neg hki]
            unfold lookupHealth
            rw [List.find?_cons_of_pos _ (by simp [hak]),
              List.find?_cons_of_pos _ (by simp [hak])]
          · unfold lookupHealth
            rw [List.find?_cons_of_neg _ (by simp [hak]),
              List.find?_cons_of_neg _ (by simp [hak])]
            exact ih2

/-- Lookup after the whole registry fold: every probed key reads back its
fresh record, every other key is unchanged. -/
theorem lookupHealth_foldl_updHealth (probe : String → AdapterHealth) :
    ∀ (l : List String) (st : List (String × AdapterHealth)) (k : String),
      lookupHealth (l.foldl (updHealth probe) st) k =
        if k ∈ l then some (probe k) else lookupHealth st k := by
  intro l
  induction l with
  | nil => intro st k; simp
  | cons a rest ih =>
      intro st k
      rw [List.foldl_cons, ih]
      by_cases hr : k ∈ rest
      · rw [if_pos hr, if_pos (List.mem_cons_of_mem a hr)]
      · rw [if_neg hr, lookupHealth_updHealth]
        by_cases hka : k = a
        · subst hka
          rw [if_pos rfl, if_pos (List.mem_cons_self k rest)]
        · rw [if_neg hka, if_neg (by simp [List.mem_cons, hka, hr])]

/-! ### Overall-status fold lemmas -/

/-- One loop step maps to `unhealthy` exactly when either side already is. -/
theorem overallStep_eq_unhealthy (acc h : HealthStatus) :
    overallStep acc h = HealthStatus.unhealthy ↔
      (acc = HealthStatus.unhealthy ∨ h = HealthStatus.unhealthy) := by
  cases acc <;> cases h <;> simp [overallStep]

/-- One loop step stays `healthy` exactly when both sides are. -/
theorem overallStep_eq_healthy (acc h : HealthStatus) :
    overallStep acc h = HealthStatus.healthy ↔
      (acc = HealthStatus.healthy ∧ h = HealthStatus.healthy) := by
  cases acc <;> cases h <;> simp [overallStep]

/-- The overall-status fold ends `unhealthy` exactly when it started there or
some probed adapter is `unhealthy`. -/
theorem foldOverall_eq_unhealthy (probe : String → AdapterHealth) :
    ∀ (l : List String) (acc : HealthStatus),
      (l.foldl (fun a id => overallStep a (probe id).status) acc =
          HealthStatus.unhealthy ↔
        acc = HealthStatus.unhealthy ∨
          ∃ id ∈ l, (probe id).status = HealthStatus.unhealthy) := by
  intro l
  induction l with
  | nil => intro acc; simp
  | cons a rest ih =>
      intro acc
      rw [List.foldl_cons, ih, overallStep_eq_unhealthy]
      simp only [List.mem_cons, exists_eq_or_imp]
      tauto

/-- The overall-status fold ends `healthy` exactly when it started there and
every probed adapter is `healthy`. -/
theorem foldOverall_eq_healthy (probe : String → AdapterHealth) :
    ∀ (l : List String) (acc : HealthStatus),
      (l.foldl (fun a id => overallStep a (probe id).status) acc =
          HealthStatus.healthy ↔
        acc = HealthStatus.healthy ∧
          ∀ id ∈ l, (probe id).status = HealthStatus.healthy) := by
  intro l
  induction l with
  | nil => intro acc; simp
  | cons a rest ih =>
      intro acc
      rw [List.foldl_cons, ih, overallStep_eq_healthy]
      simp only [List.mem_cons]
      constructor
      · rintro ⟨⟨h1, h2⟩, h3⟩
        exact ⟨h1, fun id hid => by
          cases hid with
          | inl he => rw [he]; exact h2
          | inr hm => exact h3 id hm⟩
      · rintro ⟨h1, h2⟩
        exact ⟨⟨h1, h2 a (Or.inl rfl)⟩, fun id hid => h2 id (Or.inr hid)⟩

/-! ### Health claims -/

/-- Claim C7: checkAdapterHealth is total (never raises) and classifies every
probe outcome: a thrown error or an error-status result gives `unhealthy` with
the error message attached; a successful probe with latency above 1000 gives
`degraded`; otherwise `healthy`.  In particular a probe of an unknown adapter
identifier, whose callAdapter invocation throws, yields an `unhealthy` record
carrying the validation message. -/
theorem C7_checkAdapterHealth_classification :
    (∀ (pr : Except String AdapterResponse) (lat now : Nat),
        ((checkAdapterHealth pr lat now).status = HealthStatus.unhealthy ↔
          (∃ msg, pr = Except.error msg) ∨
          (∃ resp, pr = Except.ok resp ∧ resp.status = RespStatus.error)) ∧
        ((checkAdapterHealth pr lat now).status = HealthStatus.degraded ↔
          ((∃ resp, pr = Except.ok resp ∧ resp.status = RespStatus.ok) ∧ 1000 < lat)) ∧
        ((checkAdapterHealth pr lat now).status = HealthStatus.healthy ↔
          ((∃ resp, pr = Except.ok resp ∧ resp.status = RespStatus.ok) ∧ lat ≤ 1000)))
  ∧ (∀ (msg : String) (lat now : Nat),
        (checkAdapterHealth (Except.error msg) lat now).message = some msg)
  ∧ (∀ (resp : AdapterResponse) (lat now : Nat), resp.status = RespStatus.error →
        (checkAdapterHealth (Except.ok resp) lat now).message = resp.error)
  ∧ (∀ (id : String) (t : Nat → AttemptOutcome) (rc : RetryConfig) (lat now : Nat),
        isValidAdapterId id = false →
        (checkAdapterHealth ((callAdapter id t rc).map (fun r => r.resp)) lat now).status =
          HealthStatus.unhealthy ∧
        (checkAdapterHealth ((callAdapter id t rc).map (fun r => r.resp)) lat now).message =
          some ("Invalid adapter ID: " ++ id)) := by
  refine ⟨?_, ?_, ?_, ?_⟩
  · intro pr lat now
    match pr with
    | Except.error msg =>
        refine ⟨?_, ?_, ?_⟩ <;> simp [checkAdapterHealth]
    | Except.ok resp =>
        by_cases hs : resp.status = RespStatus.error
        · refine ⟨?_, ?_, ?_⟩ <;> simp [checkAdapterHealth, hs]
        · have hok : resp.status = RespStatus.ok := by
            cases h2 : resp.status with
            | ok => rfl
            | error => exact absurd h2 hs
          by_cases hl : 1000 < lat
          · refine ⟨?_, ?_, ?_⟩ <;> simp [checkAdapterHealth, hs, hl, hok]
          · refine ⟨?_, ?_, ?_⟩ <;> simp [checkAdapterHealth, hs, hl, hok, Nat.not_lt.mp hl]
  · intro msg lat now
    simp [checkAdapterHealth]
  · intro resp lat now hs
    simp [checkAdapterHealth, hs]
  · intro id t rc lat now hid
    constructor
    · simp [callAdapter, hid, Except.map, checkAdapterHealth]
    · simp [callAdapter, hid, Except.map, checkAdapterHealth]

/-- Witness for C7: an error-status probe result yields an unhealthy record
with its message, and a probe of the unknown identifier "nope" yields an
unhealthy record carrying the validation message. -/
theorem C7_witness :
    (checkAdapterHealth (Except.ok ⟨none, RespStatus.error, none, some "E"⟩) 5 0).message =
      some "E" ∧
    (checkAdapterHealth ((callAdapter "nope"
        (fun _ => AttemptOutcome.failure ⟨"x", none⟩) defaultRetryConfig).map
        (fun r => r.resp)) 7 0).status = HealthStatus.unhealthy := by
  constructor
  · exact C7_checkAdapterHealth_classification.2.2.1
      ⟨none, RespStatus.error, none, some "E"⟩ 5 0 rfl
  · exact (C7_checkAdapterHealth_classification.2.2.2 "nope"
      (fun _ => AttemptOutcome.failure ⟨"x", none⟩) defaultRetryConfig 7 0 (by decide)).1

/-- Concrete probe family for the C8 example: every probe succeeds, the
db-logger probe with latency 1500 (degraded), the rest with latency 10. -/
def degProbeC8 : String → AdapterHealth := fun id =>
  checkAdapterHealth (Except.ok ⟨none, RespStatus.ok, none, none⟩)
    (if id = "db-logger" then 1500 else 10) 0

/-- Claim C8: checkSystemHealth probes every adapter in the registry (the
snapshot holds one fresh record per registry key and every key reads back its
fresh record from the updated health-state map) and aggregates by worst case:
`unhealthy` exactly when some probed record is, else `degraded` exactly when
some probed record is, else `healthy`; in particular one slow successful probe
among healthy ones gives overall `degraded`. -/
theorem C8_checkSystemHealth_worst_case :
    (∀ (probe : String → AdapterHealth) (st : List (String × AdapterHealth)) (now : Nat),
        ((checkSystemHealth probe st now).1.adapters =
            adapterRegistryKeys.map (fun id => (id, probe id))) ∧
        (∀ id ∈ adapterRegistryKeys,
            lookupHealth (checkSystemHealth probe st now).2 id = some (probe id)) ∧
        ((checkSystemHealth probe st now).1.status = HealthStatus.unhealthy ↔
            ∃ id ∈ adapterRegistryKeys,
              (probe id).status = HealthStatus.unhealthy) ∧
        ((checkSystemHealth probe st now).1.status = HealthStatus.healthy ↔
            ∀ id ∈ adapterRegistryKeys,
              (probe id).status = HealthStatus.healthy) ∧
        ((checkSystemHealth probe st now).1.status = HealthStatus.degraded ↔
            (∀ id ∈ adapterRegistryKeys,
              (probe id).status ≠ HealthStatus.unhealthy) ∧
            ∃ id ∈ adapterRegistryKeys,
              (probe id).status = HealthStatus.degraded))
  ∧ (checkSystemHealth degProbeC8 [] 0).1.status = HealthStatus.degraded := by
  constructor
  · intro probe st now
    have hu : (checkSystemHealth probe st now).1.status = HealthStatus.unhealthy ↔
        ∃ id ∈ adapterRegistryKeys, (probe id).status = HealthStatus.unhealthy := by
      unfold checkSystemHealth
      rw [foldOverall_eq_unhealthy]
      simp
    have hh : (checkSystemHealth probe st now).1.status = HealthStatus.healthy ↔
        ∀ id ∈ adapterRegistryKeys, (probe id).status = HealthStatus.healthy := by
      unfold checkSystemHealth
      rw [foldOverall_eq_healthy]
      simp
    refine ⟨rfl, ?_, hu, hh, ?_⟩
    · intro id hid
      unfold checkSystemHealth
      rw [lookupHealth_foldl_updHealth, if_pos hid]
    · constructor
      · intro hd
        have hnu : ¬ ∃ id ∈ adapterRegistryKeys,
            (probe id).status = HealthStatus.unhealthy := by
          rw [← hu, hd]
          simp
        have hnh : ¬ ∀ id ∈ adapterRegistryKeys,
            (probe id).status = HealthStatus.healthy := by
          rw [← hh, hd]
          simp
        push_neg at hnu hnh
        obtain ⟨id0, hid0, hne⟩ := hnh
        refine ⟨hnu, id0, hid0, ?_⟩
        cases h0 : (probe id0).status with
        | healthy => exact absurd h0 hne
        | degraded => rfl
        | unhealthy => exact absurd h0 (hnu id0 hid0)
      · rintro ⟨hnu, id0, hid0, hdeg⟩
        cases hS : (checkSystemHealth probe st now).1.status with
        | degraded => rfl
        | unhealthy =>
            obtain ⟨id1, hid1, h1⟩ := hu.mp hS
            exact absurd h1 (hnu id1 hid1)
        | healthy =>
            have := hh.mp hS id0 hid0
            rw [hdeg] at this
            exact absurd this (by simp)
  · rfl

/-- Witness for C8: the record update applied to the degraded example at the
db-logger key. -/
theorem C8_witness :
    lookupHealth (checkSystemHealth degProbeC8 [] 0).2 "db-logger" =
      some (degProbeC8 "db-logger") :=
  (C8_checkSystemHealth_worst_case.1 degProbeC8 [] 0).2.1 "db-logger" (by decide)

/-! ### Monitoring claims -/

/-- Starting the monitor from a consistent state leaves exactly one live
timer handle, and the resulting state is consistent again. -/
theorem startMonitoring_wf (hm : MonitorState) (sys : TimerSys) (intervalMs : Nat)
    (hwf : monitorWf hm sys) :
    monitorWf (startMonitoring hm sys intervalMs).1 (startMonitoring hm sys intervalMs).2 ∧
    (startMonitoring hm sys intervalMs).2.active.length = 1 := by
  match hh : hm.checkInterval with
  | none =>
      unfold monitorWf at hwf
      rw [hh] at hwf
      unfold startMonitoring setIntervalTimer
      rw [hh]
      simp [monitorWf, hwf]
  | some handle =>
      unfold monitorWf at hwf
      rw [hh] at hwf
      obtain ⟨hact, hlt⟩ := hwf
      have hsingle : ∃ v, sys.active = [(handle, v)] := by
        match hact2 : sys.active with
        | [] => rw [hact2] at hact; simp at hact
        | p :: rest =>
            rw [hact2] at hact
            simp only [List.map_cons, List.cons.injEq] at hact
            obtain ⟨hp, hrest⟩ := hact
            have hrest2 : rest = [] := by
              match rest with
              | [] => rfl
              | q :: _ => simp at hrest
            subst hrest2
            exact ⟨p.2, by rw [← hp]⟩
      obtain ⟨v, hv⟩ := hsingle
      unfold startMonitoring setIntervalTimer clearIntervalTimer
      rw [hh]
      simp only [hv, List.filter_cons]
      simp [monitorWf]

/-- Claim C9: two consecutive startMonitoring calls from any consistent state
leave exactly one live timer (the restart clears the prior schedule first),
and stopMonitoring when no monitor is running returns the state unchanged
(a no-op that cannot raise). -/
theorem C9_monitor_single_timer :
    (∀ (hm : MonitorState) (sys : TimerSys) (i1 i2 : Nat), monitorWf hm sys →
        ((startMonitoring (startMonitoring hm sys i1).1
            (startMonitoring hm sys i1).2 i2).2).active.length = 1 ∧
        (startMonitoring hm sys i1).2.active.length = 1)
  ∧ (∀ (hm : MonitorState) (sys : TimerSys), hm.checkInterval = none →
        stopMonitoring hm sys = (hm, sys)) := by
  constructor
  · intro hm sys i1 i2 hwf
    obtain ⟨hwf1, hlen1⟩ := startMonitoring_wf hm sys i1 hwf
    obtain ⟨_, hlen2⟩ :=
      startMonitoring_wf (startMonitoring hm sys i1).1 (startMonitoring hm sys i1).2 i2 hwf1
    exact ⟨hlen2, hlen1⟩
  · intro hm sys hh
    unfold stopMonitoring
    rw [hh]

/-- Witness for C9: from the fresh state with no timers, two starts leave one
live timer and a stop without a running monitor is the identity. -/
theorem C9_witness :
    ((startMonitoring (startMonitoring ⟨none, 0⟩ ⟨0, []⟩ 60000).1
        (startMonitoring ⟨none, 0⟩ ⟨0, []⟩ 60000).2 60000).2).active.length = 1 ∧
    stopMonitoring ⟨none, 0⟩ ⟨0, []⟩ = (⟨none, 0⟩, ⟨0, []⟩) := by
  constructor
  · exact (C9_monitor_single_timer.1 ⟨none, 0⟩ ⟨0, []⟩ 60000 60000
      (by simp [monitorWf])).1
  · exact C9_monitor_single_timer.2 ⟨none, 0⟩ ⟨0, []⟩ rfl
